import Mathlib

/-!
Verification development for the govhack2025 transliteration service.

Embedding conventions:
- Go strings are modelled as lists of Unicode code points (`Str := List Nat`);
  Go iterates strings rune by rune, so this matches the source loops directly.
  Byte-based operations (`len`, UTF-8 size checks) are modelled through
  `utf8Len`, which sums the UTF-8 byte width of each code point.
- Go `float64` confidence arithmetic is modelled over `ℚ`; all constants in the
  source are short decimal literals, and no claim depends on rounding at binary
  floating-point precision.
- The Go `unicode` package classification tables (`IsLetter`, `IsDigit`,
  `IsPunct`) are external to the repository; they are passed as an explicit
  `UTables` parameter, so universally quantified theorems hold for every
  classification table.  `stdT` is a concrete instance that agrees with Unicode
  on every code point used in concrete witnesses and counterexamples.
  `unicode.IsSpace` tests the fixed, finite Unicode White_Space set and is
  embedded exactly as `goIsSpace`.
- Case mapping (`strings.ToUpper` / `ToLower` / `Title`) is modelled over the
  ASCII range; every non-ASCII character compared after case conversion in this
  development is already in the case the source compares against.
- The `character_mappings` database lookup is an injected parameter `lookup`;
  an empty string result means `not found`, exactly as in the source.
- Go map iteration order is unspecified; the dominant-script loops are
  determinized by folding over the fixed list of classifier outputs.  No claim
  below depends on the tie-breaking order.
-/

namespace Govhack

/-- A Go string, modelled as the list of its Unicode code points (runes). -/
abbrev Str := List Nat

/-- Conversion from a Lean string literal to its code-point list. -/
def str (s : String) : Str := s.data.map Char.toNat

/-- Go `unicode.IsSpace`: the fixed Unicode White_Space set. -/
def goIsSpace (r : Nat) : Bool :=
  r == 9 || r == 10 || r == 11 || r == 12 || r == 13 || r == 32 ||
  r == 0x85 || r == 0xA0 || r == 0x1680 ||
  (0x2000 ≤ r && r ≤ 0x200A) ||
  r == 0x2028 || r == 0x2029 || r == 0x202F || r == 0x205F || r == 0x3000

/-- ASCII-range upper-casing of one code point (models `unicode.ToUpper`). -/
def toUpperN (r : Nat) : Nat :=
  if 97 ≤ r ∧ r ≤ 122 then r - 32 else r

/-- ASCII-range lower-casing of one code point (models `unicode.ToLower`). -/
def toLowerN (r : Nat) : Nat :=
  if 65 ≤ r ∧ r ≤ 90 then r + 32 else r

/-- Go `strings.ToUpper`. -/
def goToUpper (s : Str) : Str := s.map toUpperN

/-- Go `strings.ToLower`. -/
def goToLower (s : Str) : Str := s.map toLowerN

/-- UTF-8 byte width of one code point. -/
def byteLen (r : Nat) : Nat :=
  if r < 0x80 then 1 else if r < 0x800 then 2 else if r < 0x10000 then 3 else 4

/-- Go `len` on a string: its UTF-8 byte count. -/
def utf8Len (s : Str) : Nat := (s.map byteLen).sum

/-- Decides whether the first list is a leading segment of the second. -/
def leadsWith : Str → Str → Bool
  | [], _ => true
  | _ :: _, [] => false
  | a :: as, b :: bs => a == b && leadsWith as bs

/-- Go `strings.Contains` (byte containment coincides with rune containment
on valid UTF-8, since UTF-8 is self-synchronizing). -/
def containsStr : Str → Str → Bool
  | [], sub => sub.isEmpty
  | c :: rest, sub => leadsWith sub (c :: rest) || containsStr rest sub

/-- Go `strings.Contains` on script/locale tags. -/
def containsS (s sub : String) : Bool := containsStr (str s) (str sub)

/-- Go `strings.HasSuffix`. -/
def trailsWith (s suffixPart : Str) : Bool := leadsWith suffixPart.reverse s.reverse

/-- Scan loop of `replaceAll`: while `skip` is positive the characters of an
already matched occurrence are consumed without rescanning. -/
def replaceAllAux (pat rep : Str) : Nat → Str → Str
  | skip + 1, _ :: rest => replaceAllAux pat rep skip rest
  | _, [] => []
  | 0, c :: rest =>
    if pat ≠ [] ∧ leadsWith pat (c :: rest) then
      rep ++ replaceAllAux pat rep (pat.length - 1) rest
    else
      c :: replaceAllAux pat rep 0 rest

/-- Go `strings.ReplaceAll s pat rep` for a non-empty pattern: left-to-right,
non-overlapping.  The source never calls it with an empty pattern; for
`pat = []` this model returns the string unchanged. -/
def replaceAll (pat rep s : Str) : Str := replaceAllAux pat rep 0 s

/-- Go `strings.Trim`: strip leading and trailing code points in `cutset`. -/
def trimChars (s cutset : Str) : Str :=
  ((s.dropWhile (cutset.contains ·)).reverse.dropWhile (cutset.contains ·)).reverse

/-- Go `strings.TrimSpace`. -/
def trimSpace (s : Str) : Str :=
  ((s.dropWhile goIsSpace).reverse.dropWhile goIsSpace).reverse

/-- Accumulator loop for `fields`: `cur` holds the current token reversed. -/
def fieldsAux : Str → Str → List Str
  | [], cur => if cur = [] then [] else [cur.reverse]
  | c :: rest, cur =>
    if goIsSpace c then
      if cur = [] then fieldsAux rest [] else cur.reverse :: fieldsAux rest []
    else fieldsAux rest (c :: cur)

/-- Go `strings.Fields`: split around runs of white space, dropping empties. -/
def fields (s : Str) : List Str := fieldsAux s []

/-- The Go `unicode` package classification tables, passed explicitly. -/
structure UTables where
  isLetter : Nat → Bool
  isDigit : Nat → Bool
  isPunct : Nat → Bool

/-- Letter classification of the concrete table instance: agrees with Unicode
on ASCII, Latin-1/Extended, Greek, Cyrillic, Arabic, Latin Extended
Additional, CJK, kana and Hangul letters (every code point exercised by the
concrete inputs in this file). -/
def stdIsLetter (r : Nat) : Bool :=
  (65 ≤ r && r ≤ 90) || (97 ≤ r && r ≤ 122) ||
  (192 ≤ r && r ≤ 214) || (216 ≤ r && r ≤ 246) || (248 ≤ r && r ≤ 0x24F) ||
  (0x391 ≤ r && r ≤ 0x3A1) || (0x3A3 ≤ r && r ≤ 0x3C9) ||
  (0x410 ≤ r && r ≤ 0x44F) || r == 0x401 || r == 0x451 ||
  (0x621 ≤ r && r ≤ 0x64A) ||
  (0x1E00 ≤ r && r ≤ 0x1EFF) ||
  (0x4E00 ≤ r && r ≤ 0x9FFF) ||
  (0x3041 ≤ r && r ≤ 0x3096) || (0x30A1 ≤ r && r ≤ 0x30FA) ||
  (0xAC00 ≤ r && r ≤ 0xD7A3)

/-- Concrete classification tables used by witnesses and counterexamples. -/
def stdT : UTables where
  isLetter := stdIsLetter
  isDigit := fun r => 48 ≤ r && r ≤ 57
  isPunct := fun r =>
    r == 0x2018 || r == 0x2019 || r == 0x201C || r == 0x201D || r == 0x2026

/-- Go `strings.isSeparator`, used by `strings.Title` to find word starts. -/
def isSeparator (T : UTables) (r : Nat) : Bool :=
  if r ≤ 0x7F then
    if 48 ≤ r ∧ r ≤ 57 then false
    else if 97 ≤ r ∧ r ≤ 122 then false
    else if 65 ≤ r ∧ r ≤ 90 then false
    else if r = 95 then false
    else true
  else if T.isLetter r || T.isDigit r then false
  else goIsSpace r

/-- Loop of `strings.Title`: `prev` is the previous original rune. -/
def goTitleAux (T : UTables) : Nat → Str → Str
  | _, [] => []
  | prev, c :: rest =>
    (if isSeparator T prev then toUpperN c else c) :: goTitleAux T c rest

/-- Go `strings.Title` (`unicode.ToTitle` coincides with `ToUpper` on the
ASCII range this model covers).  The initial previous rune is a space. -/
def goTitle (T : UTables) (s : Str) : Str := goTitleAux T 32 s

/-- The `strings.Title(strings.ToLower(..))` idiom used throughout the
name parsing code. -/
def titleLower (T : UTables) (s : Str) : Str := goTitle T (goToLower s)

/-- Looks up a rune in a Go map literal, modelled as an association list with
distinct keys; a missing key yields the empty string, as in Go. -/
def mapLookup (pairs : List (Char × String)) (r : Nat) : Str :=
  match pairs.find? (fun p => p.1.toNat == r) with
  | some p => str p.2
  | none => []

/-- Key/value pairs of the `cyrillicMap` literal in `transliterateCyrillicToLatin`. -/
def cyrillicPairs : List (Char × String) :=
  [('А', "A"), ('Б', "B"), ('В', "V"), ('Г', "G"), ('Д', "D"), ('Е', "E"), ('Ё', "Yo"),
   ('Ж', "Zh"), ('З', "Z"), ('И', "I"), ('Й', "Y"), ('К', "K"), ('Л', "L"), ('М', "M"),
   ('Н', "N"), ('О', "O"), ('П', "P"), ('Р', "R"), ('С', "S"), ('Т', "T"), ('У', "U"),
   ('Ф', "F"), ('Х', "Kh"), ('Ц', "Ts"), ('Ч', "Ch"), ('Ш', "Sh"), ('Щ', "Shch"),
   ('Ъ', ""), ('Ы', "Y"), ('Ь', ""), ('Э', "E"), ('Ю', "Yu"), ('Я', "Ya"),
   ('а', "a"), ('б', "b"), ('в', "v"), ('г', "g"), ('д', "d"), ('е', "e"), ('ё', "yo"),
   ('ж', "zh"), ('з', "z"), ('и', "i"), ('й', "y"), ('к', "k"), ('л', "l"), ('м', "m"),
   ('н', "n"), ('о', "o"), ('п', "p"), ('р', "r"), ('с', "s"), ('т', "t"), ('у', "u"),
   ('ф', "f"), ('х', "kh"), ('ц', "ts"), ('ч', "ch"), ('ш', "sh"), ('щ', "shch"),
   ('ъ', ""), ('ы', "y"), ('ь', ""), ('э', "e"), ('ю', "yu"), ('я', "ya")]

/-- `transliterateCyrillicToLatin` from the service (a missing key yields the empty string). -/
def transliterateCyrillicToLatin (r : Nat) : Str := mapLookup cyrillicPairs r

/-- Key/value pairs of the `chineseMap` literal in `transliterateChineseToLatin`. -/
def chinesePairs : List (Char × String) :=
  [('你', "ni"), ('好', "hao"), ('是', "shi"), ('的', "de"), ('我', "wo"),
   ('他', "ta"), ('她', "ta"), ('们', "men"), ('有', "you"), ('在', "zai"),
   ('了', "le"), ('不', "bu"), ('就', "jiu"), ('人', "ren"), ('都', "dou"),
   ('一', "yi"), ('二', "er"), ('三', "san"), ('四', "si"), ('五', "wu"),
   ('六', "liu"), ('七', "qi"), ('八', "ba"), ('九', "jiu"), ('十', "shi")]

/-- `transliterateChineseToLatin` from the service. -/
def transliterateChineseToLatin (r : Nat) : Str := mapLookup chinesePairs r

/-- Key/value pairs of the `arabicMap` literal in `transliterateArabicToLatin`. -/
def arabicPairs : List (Char × String) :=
  [('ا', "a"), ('ب', "b"), ('ت', "t"), ('ث', "th"), ('ج', "j"), ('ح', "h"),
   ('خ', "kh"), ('د', "d"), ('ذ', "dh"), ('ر', "r"), ('ز', "z"), ('س', "s"),
   ('ش', "sh"), ('ص', "s"), ('ض', "d"), ('ط', "t"), ('ظ', "z"), ('ع', "\x27"),
   ('غ', "gh"), ('ف', "f"), ('ق', "q"), ('ك', "k"), ('ل', "l"), ('م', "m"),
   ('ن', "n"), ('ه', "h"), ('و', "w"), ('ي', "y")]

/-- `transliterateArabicToLatin` from the service. -/
def transliterateArabicToLatin (r : Nat) : Str := mapLookup arabicPairs r

/-- Key/value pairs of the `greekMap` literal in `transliterateGreekToLatin`. -/
def greekPairs : List (Char × String) :=
  [('Α', "A"), ('Β', "B"), ('Γ', "G"), ('Δ', "D"), ('Ε', "E"), ('Ζ', "Z"),
   ('Η', "H"), ('Θ', "Th"), ('Ι', "I"), ('Κ', "K"), ('Λ', "L"), ('Μ', "M"),
   ('Ν', "N"), ('Ξ', "X"), ('Ο', "O"), ('Π', "P"), ('Ρ', "R"), ('Σ', "S"),
   ('Τ', "T"), ('Υ', "Y"), ('Φ', "Ph"), ('Χ', "Ch"), ('Ψ', "Ps"), ('Ω', "O"),
   ('α', "a"), ('β', "b"), ('γ', "g"), ('δ', "d"), ('ε', "e"), ('ζ', "z"),
   ('η', "h"), ('θ', "th"), ('ι', "i"), ('κ', "k"), ('λ', "l"), ('μ', "m"),
   ('ν', "n"), ('ξ', "x"), ('ο', "o"), ('π', "p"), ('ρ', "r"), ('σ', "s"), ('ς', "s"),
   ('τ', "t"), ('υ', "y"), ('φ', "ph"), ('χ', "ch"), ('ψ', "ps"), ('ω', "o")]

/-- `transliterateGreekToLatin` from the service. -/
def transliterateGreekToLatin (r : Nat) : Str := mapLookup greekPairs r

/-- `applyBuiltinRules` from the service: hardcoded per-script rules. -/
def applyBuiltinRules (r : Nat) (inputScript outputScript : String) : Str :=
  if inputScript = "cyrillic" ∧ outputScript = "latin" then
    transliterateCyrillicToLatin r
  else if inputScript = "chinese" ∧ (outputScript = "latin" ∨ outputScript = "ascii") then
    transliterateChineseToLatin r
  else if inputScript = "arabic" ∧ outputScript = "latin" then
    transliterateArabicToLatin r
  else if inputScript = "greek" ∧ outputScript = "latin" then
    transliterateGreekToLatin r
  else []

/-- Key/value pairs of the `asciiMap` literal in `approximateToASCII`. -/
def asciiPairs : List (Char × String) :=
  [('á', "a"), ('à', "a"), ('â', "a"), ('ã', "a"), ('ä', "a"), ('å', "a"), ('ā', "a"),
   ('é', "e"), ('è', "e"), ('ê', "e"), ('ë', "e"), ('ē', "e"),
   ('í', "i"), ('ì', "i"), ('î', "i"), ('ï', "i"), ('ī', "i"),
   ('ó', "o"), ('ò', "o"), ('ô', "o"), ('õ', "o"), ('ö', "o"), ('ø', "o"), ('ō', "o"),
   ('ú', "u"), ('ù', "u"), ('û', "u"), ('ü', "u"), ('ū', "u"),
   ('Á', "A"), ('À', "A"), ('Â', "A"), ('Ã', "A"), ('Ä', "A"), ('Å', "A"), ('Ā', "A"),
   ('É', "E"), ('È', "E"), ('Ê', "E"), ('Ë', "E"), ('Ē', "E"),
   ('Í', "I"), ('Ì', "I"), ('Î', "I"), ('Ï', "I"), ('Ī', "I"),
   ('Ó', "O"), ('Ò', "O"), ('Ô', "O"), ('Õ', "O"), ('Ö', "O"), ('Ø', "O"), ('Ō', "O"),
   ('Ú', "U"), ('Ù', "U"), ('Û', "U"), ('Ü', "U"), ('Ū', "U"),
   ('ç', "c"), ('Ç', "C"), ('ñ', "n"), ('Ñ', "N"),
   ('ß', "ss"), ('æ', "ae"), ('Æ', "AE"), ('œ', "oe"), ('Œ', "OE")]

/-- `approximateToASCII` from the service: accent table, ASCII pass-through,
then category fallbacks ("?", "0", " ", "."), else drop. -/
def approximateToASCII (T : UTables) (r : Nat) : Str :=
  let mapped := mapLookup asciiPairs r
  if mapped ≠ [] then mapped
  else if r < 128 then [r]
  else if T.isLetter r then str ("?")
  else if T.isDigit r then str ("0")
  else if goIsSpace r then str (" ")
  else if T.isPunct r then str (".")
  else []

/-- Injected `character_mappings` database lookup; `[]` means no row found. -/
abbrev Lookup := Nat → String → String → Option String → Str

/-- The lookup corresponding to an empty `character_mappings` table. -/
def noLookup : Lookup := fun _ _ _ _ => []

/-- Loop body of `performTransliteration`: database lookup, then builtin
rules, then ASCII approximation (for the ascii target) or pass-through. -/
def transliterateRuneStep (T : UTables) (lookup : Lookup) (r : Nat)
    (inputScript outputScript : String) (inputLocale : Option String) : Str :=
  let mapped := lookup r inputScript outputScript inputLocale
  if mapped ≠ [] then mapped
  else
    let builtinMapped := applyBuiltinRules r inputScript outputScript
    if builtinMapped ≠ [] then builtinMapped
    else if outputScript = "ascii" then approximateToASCII T r
    else [r]

/-- `performTransliteration` from the service: the rune loop over the text. -/
def performTransliteration (T : UTables) (lookup : Lookup) (text : Str)
    (inputScript outputScript : String) (inputLocale : Option String) : Str :=
  (text.map (fun r =>
    transliterateRuneStep T lookup r inputScript outputScript inputLocale)).flatten

/-- `performTransliterationWithValidation` from the service.  Lean strings are
valid Unicode by construction, so the `utf8.ValidString` output check of the
source cannot fire in this model. -/
def performTransliterationWithValidation (T : UTables) (lookup : Lookup) (text : Str)
    (inputScript outputScript : String) (inputLocale : Option String) : Except String Str :=
  if text = [] then .error ("empty input text")
  else
    let result := performTransliteration T lookup text inputScript outputScript inputLocale
    if result = [] then .error ("transliteration produced empty result")
    else .ok result

/-- Classification of one letter rune by the service `detectScript` ranges. -/
def detectScriptBucket (r : Nat) : String :=
  if 0x0400 ≤ r ∧ r ≤ 0x04FF then ("cyrillic")
  else if 0x4E00 ≤ r ∧ r ≤ 0x9FFF then ("chinese")
  else if 0x0600 ≤ r ∧ r ≤ 0x06FF then ("arabic")
  else if 0x0370 ≤ r ∧ r ≤ 0x03FF then ("greek")
  else if (0x41 ≤ r ∧ r ≤ 0x5A) ∨ (0x61 ≤ r ∧ r ≤ 0x7A) then ("latin")
  else if 0x80 ≤ r ∧ r ≤ 0x24F then ("latin")
  else ("unknown")

/-- Per-bucket letter count of the service `detectScript` loop. -/
def detectScriptCount (T : UTables) (s : Str) (name : String) : Nat :=
  ((s.filter T.isLetter).filter (fun r => detectScriptBucket r == name)).length

/-- The buckets the service classifier can produce (fixed iteration order for
the dominance loop; Go map iteration order is unspecified). -/
def detectScriptBuckets : List String :=
  ["cyrillic", "chinese", "arabic", "greek", "latin", "unknown"]

/-- `detectScript` from the service: dominant bucket needing a strict majority,
defaulting to latin when any latin letters were seen. -/
def detectScript (T : UTables) (text : Str) : String :=
  if text = [] then ("unknown")
  else
    let totalChars := (text.filter T.isLetter).length
    if totalChars = 0 then ("unknown")
    else
      let best := detectScriptBuckets.foldl (fun (acc : String × Nat) name =>
        let c := detectScriptCount T text name
        if c > acc.2 ∧ (c : ℚ) / (totalChars : ℚ) > 1 / 2 then (name, c) else acc)
        ("unknown", 0)
      if best.1 = "unknown" ∧ detectScriptCount T text ("latin") > 0 then ("latin")
      else best.1

/-- `calculateScriptCompatibility` from the service. -/
def calculateScriptCompatibility (inputScript outputScript : String) : ℚ :=
  if (inputScript = "latin" ∧ outputScript = "ascii") ∨
     (inputScript = "ascii" ∧ outputScript = "latin") then 0.3
  else if (inputScript = "cyrillic" ∨ inputScript = "greek") ∧
          (outputScript = "latin" ∨ outputScript = "ascii") then 0.2
  else if (inputScript = "chinese" ∨ inputScript = "arabic") ∧
          (outputScript = "latin" ∨ outputScript = "ascii") then 0.1
  else 0.0

/-- `countNonWhitespaceChars` from the service. -/
def countNonWhitespaceChars (text : Str) : Nat :=
  (text.filter (fun r => ¬ goIsSpace r)).length

/-- `calculateCharacterCoverage` from the service. -/
def calculateCharacterCoverage (inputText outputText : Str) : ℚ :=
  let inputChars := countNonWhitespaceChars inputText
  let outputChars := countNonWhitespaceChars outputText
  if inputChars = 0 then 0.0
  else if outputChars = 0 then -0.2
  else
    let coverageRatio : ℚ := (outputChars : ℚ) / (inputChars : ℚ)
    if 0.5 ≤ coverageRatio ∧ coverageRatio ≤ 1.5 then 0.1 else 0.0

/-- `calculateConfidence` from the service.  Go float division is modelled
over ℚ; the division by an empty input cannot occur in the pipeline, which
validates the text as non-empty first. -/
def calculateConfidence (inputText outputText : Str) (inputScript outputScript : String) : ℚ :=
  let base := 0.50 + calculateScriptCompatibility inputScript outputScript
    + calculateCharacterCoverage inputText outputText
  let lengthRatio : ℚ := (utf8Len outputText : ℚ) / (utf8Len inputText : ℚ)
  let base := if 0.5 ≤ lengthRatio ∧ lengthRatio ≤ 2.0 then base + 0.1 else base
  let base := if base > 1.0 then 1.0 else base
  if base < 0.1 then 0.1 else base

/-- `NameStructure` from the service (family uppercase, first title case). -/
structure NameStructure where
  family : Str
  first : Str
  middle : List Str
  titles : List Str
  fullASCII : Str
deriving DecidableEq, Repr

/-- `GenderInference` from the service. -/
structure GenderInference where
  value : String
  confidence : ℚ
  source : String
deriving DecidableEq, Repr

/-- The `titlePatterns` list of `extractTitles`. -/
def titlePatterns : List Str :=
  [str ("DR"), str ("DOCTOR"), str ("PROF"), str ("PROFESSOR"),
   str ("MR"), str ("MRS"), str ("MS"), str ("MISS"),
   str ("SIR"), str ("DAME"), str ("LORD"), str ("LADY"),
   str ("HON"), str ("HONOURABLE"), str ("REV"), str ("REVEREND")]

/-- `formatTitle` from the service: canonicalize long title forms. -/
def formatTitle (title : Str) : Str :=
  let t := goToUpper title
  if t = str ("DR") ∨ t = str ("DOCTOR") then str ("DR")
  else if t = str ("PROF") ∨ t = str ("PROFESSOR") then str ("PROF")
  else if t = str ("REV") ∨ t = str ("REVEREND") then str ("REV")
  else if t = str ("HON") ∨ t = str ("HONOURABLE") then str ("HON")
  else t

/-- `extractTitles` from the service: whole-word match against the closed
title vocabulary over the upper-cased, punctuation-trimmed words. -/
def extractTitles (text : Str) : List Str :=
  (fields (goToUpper text)).filterMap (fun word =>
    let cleanWord := trimChars word (str (".,"))
    if titlePatterns.contains cleanWord then some (formatTitle cleanWord) else none)

/-- `removeTitles` from the service: replace the canonical title forms
(upper, lower, Title case) followed by a dot or a space with the empty string. -/
def removeTitles (T : UTables) (text : Str) (titles : List Str) : Str :=
  if titles = [] then text
  else
    trimSpace (titles.foldl (fun result title =>
      [goToUpper title, goToLower title, goTitle T (goToLower title)].foldl
        (fun result pat =>
          replaceAll (pat ++ str (" ")) [] (replaceAll (pat ++ str (".")) [] result))
        result)
      text)

/-- `formatFullName` from the service: titles, first, middle, family. -/
def formatFullName (family first : Str) (middle titles : List Str) : Str :=
  let parts := titles ++ (if first = [] then [] else [first])
    ++ middle.filter (· ≠ []) ++ (if family = [] then [] else [family])
  match parts with
  | [] => []
  | p :: ps => ps.foldl (fun acc q => acc ++ str (" ") ++ q) p

/-- `parseVietnameseName` from the service: family first, given last, gender
marker tokens (van/thi and diacritic forms) dropped from the middle list. -/
def parseVietnameseName (T : UTables) (original transliterated : Str)
    (titles : List Str) : NameStructure :=
  match fields transliterated with
  | [] => ⟨[], [], [], titles, transliterated⟩
  | [p] =>
    let first := titleLower T p
    ⟨[], first, [], titles, formatFullName [] first [] titles⟩
  | p :: q :: rest =>
    let family := goToUpper p
    let first := titleLower T ((q :: rest).getLast (by simp))
    let middle := ((q :: rest).dropLast.filter (fun part =>
      let partLower := goToLower part
      partLower ≠ str ("van") ∧ partLower ≠ str ("thi") ∧
      partLower ≠ str ("văn") ∧ partLower ≠ str ("thị"))).map (titleLower T)
    ⟨family, first, middle, titles, formatFullName family first middle titles⟩

/-- `parseChineseName` from the service: family first, last token given. -/
def parseChineseName (T : UTables) (text : Str) (titles : List Str) : NameStructure :=
  match fields text with
  | [] => ⟨[], [], [], titles, text⟩
  | [p] =>
    let first := titleLower T p
    ⟨[], first, [], titles, formatFullName [] first [] titles⟩
  | [p, q] =>
    let family := goToUpper p
    let first := titleLower T q
    ⟨family, first, [], titles, formatFullName family first [] titles⟩
  | p :: q :: r :: rest =>
    let family := goToUpper p
    let first := titleLower T ((q :: r :: rest).getLast (by simp))
    let middle := ((q :: r :: rest).dropLast).map (titleLower T)
    ⟨family, first, middle, titles, formatFullName family first middle titles⟩

/-- `parseArabicName` from the service: given first, family last. -/
def parseArabicName (T : UTables) (text : Str) (titles : List Str) : NameStructure :=
  match fields text with
  | [] => ⟨[], [], [], titles, text⟩
  | [p] =>
    let first := titleLower T p
    ⟨[], first, [], titles, formatFullName [] first [] titles⟩
  | p :: q :: rest =>
    let first := titleLower T p
    let family := goToUpper ((q :: rest).getLast (by simp))
    let middle := ((q :: rest).dropLast).map (titleLower T)
    ⟨family, first, middle, titles, formatFullName family first middle titles⟩

/-- `parseMononymOrPatronymic` from the service (indonesian/malayalam). -/
def parseMononymOrPatronymic (T : UTables) (text : Str) (titles : List Str)
    (script : String) : NameStructure :=
  match fields text with
  | [] => ⟨[], [], [], titles, text⟩
  | [p] =>
    let first := titleLower T p
    ⟨[], first, [], titles, formatFullName [] first [] titles⟩
  | p :: q :: rest =>
    let hasPatronymic := (p :: q :: rest).any (fun part =>
      let lower := goToLower part
      lower = str ("bin") ∨ lower = str ("binti") ∨
      lower = str ("ibn") ∨ lower = str ("bint"))
    if hasPatronymic then
      let first := titleLower T p
      let middle := (q :: rest).map (titleLower T)
      ⟨[], first, middle, titles, formatFullName [] first middle titles⟩
    else
      let first := titleLower T p
      let family := goToUpper ((q :: rest).getLast (by simp))
      let middle := ((q :: rest).dropLast).map (titleLower T)
      ⟨family, first, middle, titles, formatFullName family first middle titles⟩

/-- `parseWesternName` from the service: given first, family last. -/
def parseWesternName (T : UTables) (text : Str) (titles : List Str) : NameStructure :=
  match fields text with
  | [] => ⟨[], [], [], titles, text⟩
  | [p] =>
    let first := titleLower T p
    ⟨[], first, [], titles, formatFullName [] first [] titles⟩
  | [p, q] =>
    let first := titleLower T p
    let family := goToUpper q
    ⟨family, first, [], titles, formatFullName family first [] titles⟩
  | p :: q :: r :: rest =>
    let first := titleLower T p
    let family := goToUpper ((q :: r :: rest).getLast (by simp))
    let middle := ((q :: r :: rest).dropLast).map (titleLower T)
    ⟨family, first, middle, titles, formatFullName family first middle titles⟩

/-- `parseName` from the service: extract titles, remove them, dispatch on the
input script (none for empty transliterated text, as the Go code returns nil). -/
def parseName (T : UTables) (originalText transliteratedText : Str)
    (inputScript : String) : Option NameStructure :=
  if transliteratedText = [] then none
  else
    let titles := extractTitles transliteratedText
    let textWithoutTitles := removeTitles T transliteratedText titles
    some (
      if inputScript = "chinese" then parseChineseName T textWithoutTitles titles
      else if inputScript = "vietnamese" then
        parseVietnameseName T originalText textWithoutTitles titles
      else if inputScript = "arabic" then parseArabicName T textWithoutTitles titles
      else if inputScript = "indonesian" ∨ inputScript = "malayalam" then
        parseMononymOrPatronymic T textWithoutTitles titles inputScript
      else parseWesternName T textWithoutTitles titles)

/-- `inferGender` from the service: Vietnamese Van/Thi markers, Arabic and
Malay/Indonesian patronymics, defaulting to X with confidence 0.1. -/
def inferGender (originalText transliteratedText : Str)
    (inputScript : String) : GenderInference :=
  let original := goToLower originalText
  let transliterated := goToLower transliteratedText
  if inputScript = "vietnamese" ∨ containsS inputScript ("vietnam") then
    if containsStr original (str ("văn")) || containsStr transliterated (str ("van")) then
      ⟨"M", 0.85, "cultural_marker"⟩
    else if containsStr original (str ("thị")) || containsStr transliterated (str ("thi")) then
      ⟨"F", 0.85, "cultural_marker"⟩
    else ⟨"X", 0.1, "unknown"⟩
  else if inputScript = "arabic" then
    if containsStr transliterated (str ("bin\x20")) || containsStr transliterated (str ("ibn\x20")) then
      ⟨"M", 0.75, "cultural_marker"⟩
    else if containsStr transliterated (str ("bint\x20")) then
      ⟨"F", 0.75, "cultural_marker"⟩
    else ⟨"X", 0.1, "unknown"⟩
  else if inputScript = "indonesian" ∨ inputScript = "malayalam" then
    if containsStr transliterated (str ("bin\x20")) then
      ⟨"M", 0.80, "cultural_marker"⟩
    else if containsStr transliterated (str ("binti\x20")) then
      ⟨"F", 0.80, "cultural_marker"⟩
    else ⟨"X", 0.1, "unknown"⟩
  else ⟨"X", 0.1, "unknown"⟩

/-- `TransliterationRequest` from the service. -/
structure TransliterationRequest where
  text : Str
  inputScript : String
  outputScript : String
  inputLocale : Option String

/-- `TransliterationResponse` from the service (alternative forms unused). -/
structure TransliterationResponse where
  id : String
  inputText : Str
  outputText : Str
  inputScript : String
  outputScript : String
  inputLocale : Option String
  confidenceScore : Option ℚ
  name : Option NameStructure
  gender : Option GenderInference

/-- `isValidLocale` from the service: `xx` or `xx-XX` shaped tags. -/
def isValidLocale (locale : String) : Bool :=
  if locale = "" then false
  else
    let parts := (str locale).splitOn 45
    if parts.length < 1 ∨ parts.length > 2 then false
    else
      let lang := parts.headI
      if lang.length < 2 ∨ lang.length > 3 then false
      else if ¬ lang.all (fun r => 97 ≤ r && r ≤ 122) then false
      else if parts.length = 2 then
        let country := parts.getLastI
        country.length = 2 && country.all (fun r => 65 ≤ r && r ≤ 90)
      else true

/-- The `validScripts` set of `validateTransliterationRequest`. -/
def validScripts : List String :=
  ["latin", "ascii", "cyrillic", "chinese", "arabic", "greek",
   "vietnamese", "indonesian", "malayalam"]

/-- `validateTransliterationRequest` from the service.  The nil-request and
invalid-UTF-8 rejections cannot fire in this model: the request is a value and
Lean strings are valid Unicode by construction. -/
def validateTransliterationRequest (req : TransliterationRequest) : Except String Unit :=
  if trimSpace req.text = [] then .error ("text cannot be empty")
  else if utf8Len req.text > 10000 then .error ("text too long (maximum 10,000 characters)")
  else if req.outputScript = "" then .error ("output_script is required")
  else if req.inputScript ≠ "" ∧ ¬ validScripts.contains req.inputScript then
    .error ("unsupported input script")
  else if ¬ validScripts.contains req.outputScript then
    .error ("unsupported output script")
  else
    match req.inputLocale with
    | some locale => if ¬ isValidLocale locale then .error ("invalid locale format") else .ok ()
    | none => .ok ()

/-- `isSupportedScriptPair` from the service.  Every row of the
`supportedPairs` table maps to the same target set, so the table is exactly:
input in the nine supported scripts and output in latin/ascii. -/
def isSupportedScriptPair (inputScript outputScript : String) : Bool :=
  (inputScript == "latin" || inputScript == "ascii" || inputScript == "cyrillic" ||
   inputScript == "chinese" || inputScript == "arabic" || inputScript == "greek" ||
   inputScript == "vietnamese" || inputScript == "indonesian" ||
   inputScript == "malayalam") &&
  (outputScript == "latin" || outputScript == "ascii")

/-- `Transliterate` from the service, with the effectful collaborators passed
explicitly: `lookup` models the `character_mappings` table, `cached` the result
of `getCachedTransliteration`, and `newId` the row id minted by
`storeTransliteration` (the usage-count update on the cached path touches only
the database and is not modelled). -/
def Transliterate (T : UTables) (lookup : Lookup)
    (cached : Option TransliterationResponse) (newId : String)
    (req : TransliterationRequest) : Except String TransliterationResponse :=
  match validateTransliterationRequest req with
  | .error e => .error ("invalid request: " ++ e)
  | .ok _ =>
    let inputScript := if req.inputScript = "" then detectScript T req.text
                       else req.inputScript
    if req.inputScript = "" ∧ detectScript T req.text = "unknown" then
      .error ("unable to detect input script")
    else if ¬ isSupportedScriptPair inputScript req.outputScript then
      .error ("unsupported script conversion: " ++ inputScript ++ " to\x20" ++ req.outputScript)
    else
      match cached with
      | some c =>
        .ok { c with
          name := match c.name with
                  | none => parseName T req.text c.outputText inputScript
                  | some n => some n,
          gender := match c.gender with
                    | none => some (inferGender req.text c.outputText inputScript)
                    | some g => some g }
      | none =>
        match performTransliterationWithValidation T lookup req.text inputScript
              req.outputScript req.inputLocale with
        | .error e => .error ("transliteration failed: " ++ e)
        | .ok outputText =>
          let confidenceScore := calculateConfidence req.text outputText
            inputScript req.outputScript
          let nameStructure := parseName T req.text outputText inputScript
          let genderInference := inferGender req.text outputText inputScript
          .ok ⟨newId, req.text, outputText, inputScript, req.outputScript,
               req.inputLocale, some confidenceScore, nameStructure,
               some genderInference⟩

/-- Claim C3 (amended): for culture chinese the first token after title
removal becomes the family, the last token the given name and the interior
tokens the middle names (the two-token case has the second token as the given
name), while cultures japanese and korean are not special-cased by the parser
and fall through to the Western strategy. -/
theorem parseName_cjk (T : UTables) (originalText transliteratedText : Str)
    (p q : Str) (rest : List Str)
    (h : fields (removeTitles T transliteratedText (extractTitles transliteratedText))
      = p :: q :: rest) :
    (∃ ns, parseName T originalText transliteratedText ("chinese") = some ns ∧
      ns.family = goToUpper p ∧
      ns.first = titleLower T ((q :: rest).getLast (by simp)) ∧
      ns.middle = ((q :: rest).dropLast).map (titleLower T)) ∧
    parseName T originalText transliteratedText ("japanese")
      = some (parseWesternName T
          (removeTitles T transliteratedText (extractTitles transliteratedText))
          (extractTitles transliteratedText)) ∧
    parseName T originalText transliteratedText ("korean")
      = some (parseWesternName T
          (removeTitles T transliteratedText (extractTitles transliteratedText))
          (extractTitles transliteratedText)) := by
  have ht : transliteratedText ≠ [] := by
    rintro rfl
    rw [show fields (removeTitles T ([] : Str) (extractTitles ([] : Str))) = [] from rfl] at h
    cases h
  have hdisp : parseName T originalText transliteratedText ("chinese")
      = some (parseChineseName T
          (removeTitles T transliteratedText (extractTitles transliteratedText))
          (extractTitles transliteratedText)) := by
    unfold parseName
    rw [if_neg ht]
    rfl
  refine ⟨?_, ?_, ?_⟩
  · rcases rest with _ | ⟨r, rest2⟩
    · exact ⟨_, hdisp, by simp [parseChineseName, h],
        by simp [parseChineseName, h], by simp [parseChineseName, h]⟩
    · exact ⟨_, hdisp, by simp [parseChineseName, h],
        by simp [parseChineseName, h], by simp [parseChineseName, h]⟩
  · unfold parseName
    rw [if_neg ht]
    rfl
  · unfold parseName
    rw [if_neg ht]
    rfl

/-- Claim C3 witness: the chinese split instantiated on a three-token name,
together with the japanese/korean fall-through on the same text. -/
theorem parseName_cjk_witness :
    (∃ ns, parseName stdT (str ("Li Xiao Long")) (str ("Li Xiao Long")) "chinese"
        = some ns ∧
      ns.family = goToUpper (str ("Li")) ∧
      ns.first = titleLower stdT ((str ("Xiao") :: [str ("Long")]).getLast (by simp)) ∧
      ns.middle = ((str ("Xiao") :: [str ("Long")]).dropLast).map (titleLower stdT)) ∧
    parseName stdT (str ("Li Xiao Long")) (str ("Li Xiao Long")) "japanese"
      = some (parseWesternName stdT
          (removeTitles stdT (str ("Li Xiao Long")) (extractTitles (str ("Li Xiao Long"))))
          (extractTitles (str ("Li Xiao Long")))) ∧
    parseName stdT (str ("Li Xiao Long")) (str ("Li Xiao Long")) "korean"
      = some (parseWesternName stdT
          (removeTitles stdT (str ("Li Xiao Long")) (extractTitles (str ("Li Xiao Long"))))
          (extractTitles (str ("Li Xiao Long")))) :=
  parseName_cjk stdT (str ("Li Xiao Long")) (str ("Li Xiao Long"))
    (str ("Li")) (str ("Xiao")) [str ("Long")] (by decide)

/-- Claim C3 counterexample: with culture japanese and the two-token name
Yamada Taro, the parser makes the second token the family name, not the
first, so the claimed family-first rule for japanese fails. -/
theorem parseName_japanese_cx :
    parseName stdT (str ("Yamada Taro")) (str ("Yamada Taro")) "japanese"
      = some ⟨str ("TARO"), str ("Yamada"), [], [], str ("Yamada TARO")⟩ ∧
    str ("TARO") ≠ goToUpper (str ("Yamada")) :=
  ⟨by decide, by decide⟩

/-- Claim C1: evaluation of the service pipeline on Doctor Nguyễn Văn Minh
with culture vietnamese, target ascii and an empty mapping table.  The titles,
first name and gender inference agree with the claim, but the family name
comes out as DOCTOR: `extractTitles` canonicalizes DOCTOR to DR, then
`removeTitles` only removes DR-shaped substrings, so the token Doctor survives
and becomes the family slot; the Vietnamese letters fall to the question-mark fallback. -/
theorem vietnameseDoctor_eval :
    performTransliteration stdT noLookup (str ("Doctor Nguyễn Văn Minh"))
      "vietnamese" "ascii" none = str ("Doctor Nguy?n V?n Minh") ∧
    parseName stdT (str ("Doctor Nguyễn Văn Minh")) (str ("Doctor Nguy?n V?n Minh"))
      "vietnamese"
      = some ⟨str ("DOCTOR"), str ("Minh"), [str ("Nguy?N"), str ("V?N")],
              [str ("DR")], str ("DR Minh Nguy?N V?N DOCTOR")⟩ ∧
    inferGender (str ("Doctor Nguyễn Văn Minh")) (str ("Doctor Nguy?n V?n Minh"))
      "vietnamese" = ⟨"M", 0.85, "cultural_marker"⟩ ∧
    str ("DOCTOR") ≠ str ("NGUYEN") :=
  ⟨by decide, by decide, by rfl, by decide⟩

/-- Claim C10: a request whose text is empty or whitespace-only, or longer
than 10,000 bytes, or whose input or output script lies outside the fixed
supported set, is rejected by validation, and `Transliterate` then returns
that error for every mapping table, cache state and row id, before any
transliteration work happens.  A Lean `Str` is valid Unicode by construction,
so the invalid-UTF-8 rejection of the source cannot fire in this model. -/
theorem transliterate_rejects (T : UTables) (lookup : Lookup)
    (cached : Option TransliterationResponse) (newId : String)
    (req : TransliterationRequest)
    (h : trimSpace req.text = [] ∨ utf8Len req.text > 10000 ∨
         (req.inputScript ≠ "" ∧ ¬ validScripts.contains req.inputScript = true) ∨
         ¬ validScripts.contains req.outputScript = true) :
    (∃ e, validateTransliterationRequest req = .error e) ∧
    (∃ e, Transliterate T lookup cached newId req = .error e) := by
  have hval : ∃ e, validateTransliterationRequest req = .error e := by
    unfold validateTransliterationRequest
    by_cases h1 : trimSpace req.text = []
    · exact ⟨_, by rw [if_pos h1]⟩
    by_cases h2 : utf8Len req.text > 10000
    · exact ⟨_, by rw [if_neg h1, if_pos h2]⟩
    by_cases h3 : req.outputScript = ""
    · exact ⟨_, by rw [if_neg h1, if_neg h2, if_pos h3]⟩
    by_cases h4 : req.inputScript ≠ "" ∧ ¬ validScripts.contains req.inputScript = true
    · exact ⟨_, by rw [if_neg h1, if_neg h2, if_neg h3, if_pos h4]⟩
    by_cases h5 : ¬ validScripts.contains req.outputScript = true
    · exact ⟨_, by rw [if_neg h1, if_neg h2, if_neg h3, if_neg h4, if_pos h5]⟩
    exfalso
    rcases h with h | h | h | h
    · exact h1 h
    · exact h2 h
    · exact h4 h
    · exact h5 h
  obtain ⟨e, he⟩ := hval
  refine ⟨⟨e, he⟩, ⟨"invalid request: " ++ e, ?_⟩⟩
  unfold Transliterate
  rw [he]

/-- Claim C10 witness: a whitespace-only request is rejected by validation and
by the entry point. -/
theorem transliterate_rejects_witness :
    (∃ e, validateTransliterationRequest
      ⟨str ("   "), "latin", "ascii", none⟩ = .error e) ∧
    (∃ e, Transliterate stdT noLookup none ("id-1")
      ⟨str ("   "), "latin", "ascii", none⟩ = .error e) :=
  transliterate_rejects stdT noLookup none ("id-1")
    ⟨str ("   "), "latin", "ascii", none⟩ (Or.inl (by decide))

end Govhack

namespace Govhack.detection

/-- `ScriptInfo` from the detection package; `details` models the
per-script character-count map as a total function (missing key = 0). -/
structure ScriptInfo where
  script : String
  confidence : ℚ
  details : String → Nat

/-- `classifyRune` from the detection package: Unicode-range buckets,
with extended Latin refined by `detectLatinVariant`. -/
def detectLatinVariant (r : Nat) : String :=
  if r = 0x103 ∨ r = 0x102 ∨ r = 0x111 ∨ r = 0x110 ∨
     r = 0x1B0 ∨ r = 0x1AF ∨ r = 0x1A1 ∨ r = 0x1A0 ∨
     (0x1EA0 ≤ r ∧ r ≤ 0x1EF9) then ("vietnamese")
  else if r = 0xE4 ∨ r = 0xC4 ∨ r = 0xF6 ∨ r = 0xD6 ∨
          r = 0xFC ∨ r = 0xDC ∨ r = 0xDF then ("german")
  else ("latin")

/-- `classifyRune` from the detection package. -/
def classifyRune (r : Nat) : String :=
  if 0x0400 ≤ r ∧ r ≤ 0x04FF then ("cyrillic")
  else if 0x0500 ≤ r ∧ r ≤ 0x052F then ("cyrillic")
  else if 0x2DE0 ≤ r ∧ r ≤ 0x2DFF then ("cyrillic")
  else if 0x4E00 ≤ r ∧ r ≤ 0x9FFF then ("chinese")
  else if 0x3400 ≤ r ∧ r ≤ 0x4DBF then ("chinese")
  else if 0x20000 ≤ r ∧ r ≤ 0x2A6DF then ("chinese")
  else if 0x3040 ≤ r ∧ r ≤ 0x309F then ("japanese")
  else if 0x30A0 ≤ r ∧ r ≤ 0x30FF then ("japanese")
  else if 0x0600 ≤ r ∧ r ≤ 0x06FF then ("arabic")
  else if 0x0750 ≤ r ∧ r ≤ 0x077F then ("arabic")
  else if 0x08A0 ≤ r ∧ r ≤ 0x08FF then ("arabic")
  else if 0x0370 ≤ r ∧ r ≤ 0x03FF then ("greek")
  else if 0x1F00 ≤ r ∧ r ≤ 0x1FFF then ("greek")
  else if 0x0041 ≤ r ∧ r ≤ 0x005A then ("latin")
  else if 0x0061 ≤ r ∧ r ≤ 0x007A then ("latin")
  else if 0x00C0 ≤ r ∧ r ≤ 0x024F then detectLatinVariant r
  else if 0x1E00 ≤ r ∧ r ≤ 0x1EFF then detectLatinVariant r
  else if 0x0590 ≤ r ∧ r ≤ 0x05FF then ("hebrew")
  else if 0x0E00 ≤ r ∧ r ≤ 0x0E7F then ("thai")
  else if 0xAC00 ≤ r ∧ r ≤ 0xD7AF then ("korean")
  else if 0x1100 ≤ r ∧ r ≤ 0x11FF then ("korean")
  else ("unknown")

/-- The letters of a text under the injected classification table. -/
def letterRunes (T : UTables) (s : Str) : Str := s.filter T.isLetter

/-- Value of the `scriptCounts` map for one script name. -/
def scriptCount (T : UTables) (s : Str) (name : String) : Nat :=
  ((letterRunes T s).filter (fun r => classifyRune r == name)).length

/-- The scripts `classifyRune` can produce (fixed iteration order for the
fallback dominance loop; Go map iteration order is unspecified, and no claim
below depends on the tie-breaking order). -/
def scriptNames : List String :=
  ["cyrillic", "chinese", "japanese", "arabic", "greek", "latin",
   "vietnamese", "german", "hebrew", "thai", "korean", "unknown"]

/-- One step of the fallback dominance loop of `DetectScript`. -/
def dominantStep (T : UTables) (s : Str) (acc : String × Nat) (name : String) : String × Nat :=
  let c := scriptCount T s name
  if c > acc.2 then (name, c) else acc

/-- The `maxScript`/`maxCount` selection of `DetectScript`: Vietnamese first,
then German, then the dominant script by raw letter count. -/
def dominantScript (T : UTables) (text : Str) : String × Nat :=
  if scriptCount T text ("vietnamese") > 0 then
    ("vietnamese", scriptCount T text ("vietnamese"))
  else if scriptCount T text ("german") > 0 then
    ("german", scriptCount T text ("german"))
  else scriptNames.foldl (dominantStep T text) ("unknown", 0)

/-- `DetectScript` from the detection package, with the stepped confidence
boosts of the source. -/
def DetectScript (T : UTables) (text : Str) : ScriptInfo :=
  if text = [] then ⟨"unknown", 0.0, fun _ => 0⟩
  else
    let totalLetters := (letterRunes T text).length
    if totalLetters = 0 then ⟨"unknown", 0.0, scriptCount T text⟩
    else
      let best := dominantScript T text
      let ratio : ℚ := (best.2 : ℚ) / (totalLetters : ℚ)
      let confidence : ℚ :=
        if ratio > 0.8 then 0.95
        else if ratio > 0.6 then 0.85
        else if ratio > 0.4 then 0.70
        else if best.1 = "latin" ∧ scriptCount T text ("latin") > 0 then 0.60
        else ratio
      ⟨best.1, confidence, scriptCount T text⟩

/-- The `vietnameseMarkers` list of `isVietnamese` (the source list repeats
the grave-accent y). -/
def vietnameseMarkers : List Str :=
  [str ("ă"), str ("â"), str ("đ"), str ("ê"), str ("ô"), str ("ơ"), str ("ư"),
   str ("ạ"), str ("ả"), str ("ã"), str ("á"), str ("à"),
   str ("ẹ"), str ("ẻ"), str ("ẽ"), str ("é"), str ("è"),
   str ("ị"), str ("ỉ"), str ("ĩ"), str ("í"), str ("ì"),
   str ("ọ"), str ("ỏ"), str ("õ"), str ("ó"), str ("ò"),
   str ("ụ"), str ("ủ"), str ("ũ"), str ("ú"), str ("ù"),
   str ("ỳ"), str ("ỷ"), str ("ỹ"), str ("ý"), str ("ỳ")]

/-- Number of entries of `vietnameseMarkers` contained in the text (the loop
counter of `isVietnamese`). -/
def vietnameseMarkerCount (text : Str) : Nat :=
  vietnameseMarkers.countP (fun marker => containsStr text marker)

/-- `isVietnamese` from the detection package: at least two distinct
Vietnamese diacritic markers. -/
def isVietnamese (text : Str) : Bool := vietnameseMarkerCount text ≥ 2

lemma scriptCount_le (T : UTables) (s : Str) (name : String) :
    scriptCount T s name ≤ (letterRunes T s).length :=
  List.length_filter_le _ _

lemma dominantFold_spec (T : UTables) (s : Str) (l : List String) (acc : String × Nat)
    (hacc : acc = ("unknown", 0) ∨ (acc.2 = scriptCount T s acc.1 ∧ 0 < acc.2)) :
    l.foldl (dominantStep T s) acc = ("unknown", 0) ∨
    ((l.foldl (dominantStep T s) acc).2
        = scriptCount T s (l.foldl (dominantStep T s) acc).1 ∧
     0 < (l.foldl (dominantStep T s) acc).2) := by
  induction l generalizing acc with
  | nil => exact hacc
  | cons a l ih =>
    apply ih
    unfold dominantStep
    dsimp only
    split
    · rename_i hgt
      exact Or.inr ⟨rfl, by omega⟩
    · exact hacc

lemma dominantScript_spec (T : UTables) (s : Str) :
    dominantScript T s = ("unknown", 0) ∨
    ((dominantScript T s).2 = scriptCount T s (dominantScript T s).1 ∧
     0 < (dominantScript T s).2) := by
  unfold dominantScript
  split
  · rename_i hv
    exact Or.inr ⟨rfl, hv⟩
  split
  · rename_i hg
    exact Or.inr ⟨rfl, hg⟩
  exact dominantFold_spec T s scriptNames ("unknown", 0) (Or.inl rfl)

lemma dominantScript_le (T : UTables) (s : Str) :
    (dominantScript T s).2 ≤ (letterRunes T s).length := by
  rcases dominantScript_spec T s with h | h
  · rw [h]
    exact Nat.zero_le _
  · rw [h.1]
    exact scriptCount_le T s _

lemma dominantScript_viet_iff (T : UTables) (s : Str) :
    (dominantScript T s).1 = "vietnamese" ↔ 0 < scriptCount T s ("vietnamese") := by
  unfold dominantScript
  split
  · rename_i hv
    simpa using hv
  split
  · rename_i hv hg
    constructor
    · intro h
      simp at h
    · intro h
      exact absurd h hv
  · rename_i hv hg
    constructor
    · intro h
      rcases dominantFold_spec T s scriptNames ("unknown", 0) (Or.inl rfl) with h2 | h2
      · rw [h2] at h
        simp at h
      · rw [h] at h2
        omega
    · intro h
      exact absurd h hv

lemma dominantScript_german_iff (T : UTables) (s : Str) :
    (dominantScript T s).1 = "german" ↔
      (scriptCount T s ("vietnamese") = 0 ∧ 0 < scriptCount T s ("german")) := by
  unfold dominantScript
  split
  · rename_i hv
    constructor
    · intro h
      simp at h
    · intro h
      omega
  split
  · rename_i hv hg
    constructor
    · intro _
      exact ⟨by omega, hg⟩
    · intro _
      rfl
  · rename_i hv hg
    constructor
    · intro h
      rcases dominantFold_spec T s scriptNames ("unknown", 0) (Or.inl rfl) with h2 | h2
      · rw [h2] at h
        simp at h
      · rw [h] at h2
        omega
    · intro h
      exact absurd h.2 hg

lemma scriptCount_pos_total (T : UTables) (s : Str) (name : String)
    (h : 0 < scriptCount T s name) : s ≠ [] ∧ 0 < (letterRunes T s).length := by
  have hle := scriptCount_le T s name
  constructor
  · rintro rfl
    simp [scriptCount, letterRunes] at h
  · omega

/-- Claim C5: the detection confidence always lies in the unit interval, the
empty string detects as unknown with confidence zero, a text with no letters
detects as unknown with confidence zero, and the operation is a total
function (it never fails). -/
theorem DetectScript_confidence_ok (T : UTables) (s : Str) :
    (0 ≤ (DetectScript T s).confidence ∧ (DetectScript T s).confidence ≤ 1) ∧
    ((DetectScript T ([] : Str)).script = "unknown" ∧
     (DetectScript T ([] : Str)).confidence = 0) ∧
    ((letterRunes T s).length = 0 →
      (DetectScript T s).script = "unknown" ∧ (DetectScript T s).confidence = 0) := by
  have hempty : (DetectScript T ([] : Str)).script = "unknown" ∧
      (DetectScript T ([] : Str)).confidence = 0 := by
    constructor
    · rfl
    · show (0.0 : ℚ) = 0
      norm_num
  refine ⟨?_, hempty, ?_⟩
  · rcases eq_or_ne s [] with rfl | hs
    · rw [hempty.2]
      norm_num
    · unfold DetectScript
      rw [if_neg hs]
      by_cases htot : (letterRunes T s).length = 0
      · rw [if_pos htot]
        norm_num
      · rw [if_neg htot]
        have hpos : (0 : ℚ) < ((letterRunes T s).length : ℚ) := by
          exact_mod_cast Nat.pos_of_ne_zero htot
        have hle : ((dominantScript T s).2 : ℚ) ≤ ((letterRunes T s).length : ℚ) := by
          exact_mod_cast dominantScript_le T s
        have hratio0 : (0 : ℚ) ≤ ((dominantScript T s).2 : ℚ) / ((letterRunes T s).length : ℚ) :=
          div_nonneg (by positivity) (le_of_lt hpos)
        have hratio1 : ((dominantScript T s).2 : ℚ) / ((letterRunes T s).length : ℚ) ≤ 1 :=
          (div_le_one hpos).mpr hle
        simp only [ScriptInfo.mk.injEq]
        split
        · norm_num
        split
        · norm_num
        split
        · norm_num
        split
        · norm_num
        · exact ⟨hratio0, hratio1⟩
  · intro htot
    rcases eq_or_ne s [] with rfl | hs
    · exact hempty
    · unfold DetectScript
      rw [if_neg hs, if_pos htot]
      constructor
      · rfl
      · show (0.0 : ℚ) = 0
        norm_num

/-- Claim C5 witness: a digits-only text has no letters, so detection returns
unknown with confidence zero, which lies in the unit interval. -/
theorem DetectScript_confidence_ok_witness :
    (0 ≤ (DetectScript stdT (str ("123"))).confidence ∧
     (DetectScript stdT (str ("123"))).confidence ≤ 1) ∧
    ((DetectScript stdT ([] : Str)).script = "unknown" ∧
     (DetectScript stdT ([] : Str)).confidence = 0) ∧
    ((letterRunes stdT (str ("123"))).length = 0 →
      (DetectScript stdT (str ("123"))).script = "unknown" ∧
      (DetectScript stdT (str ("123"))).confidence = 0) :=
  DetectScript_confidence_ok stdT (str ("123"))

/-- Claim C6 (amended): detection declares vietnamese exactly when at least
one letter classifies as a Vietnamese-specific code point, and german exactly
when no letter is Vietnamese-specific and at least one is a German
umlaut/eszett; both therefore take priority over the generic latin label
regardless of raw letter counts. -/
theorem DetectScript_variant_priority (T : UTables) (s : Str) :
    ((DetectScript T s).script = "vietnamese" ↔ 0 < scriptCount T s ("vietnamese")) ∧
    ((DetectScript T s).script = "german" ↔
      (scriptCount T s ("vietnamese") = 0 ∧ 0 < scriptCount T s ("german"))) := by
  rcases eq_or_ne s [] with rfl | hs
  · have hu : (DetectScript T ([] : Str)).script = "unknown" := rfl
    have h0 : ∀ name, scriptCount T ([] : Str) name = 0 := fun _ => rfl
    rw [hu, h0, h0]
    constructor
    · constructor
      · intro h
        simp at h
      · intro h
        exact absurd h (by omega)
    · constructor
      · intro h
        simp at h
      · intro h
        exact absurd h.2 (by omega)
  · by_cases htot : (letterRunes T s).length = 0
    · have hv : scriptCount T s ("vietnamese") = 0 := by
        have := scriptCount_le T s ("vietnamese")
        omega
      have hg : scriptCount T s ("german") = 0 := by
        have := scriptCount_le T s ("german")
        omega
      have hscript : (DetectScript T s).script = "unknown" := by
        unfold DetectScript
        rw [if_neg hs, if_pos htot]
      rw [hscript, hv, hg]
      constructor
      · constructor
        · intro h
          exact absurd h (by decide)
        · omega
      · constructor
        · intro h
          exact absurd h (by decide)
        · omega
    · have hscript : (DetectScript T s).script = (dominantScript T s).1 := by
        unfold DetectScript
        rw [if_neg hs, if_neg htot]
      rw [hscript]
      exact ⟨dominantScript_viet_iff T s, dominantScript_german_iff T s⟩

/-- Claim C6 counterexample: the single letter ă classifies as Vietnamese, so
detection declares vietnamese although only one distinct Vietnamese diacritic
marker (out of the required two) occurs in the text. -/
theorem DetectScript_two_marker_cx :
    (DetectScript stdT (str ("ă"))).script = "vietnamese" ∧
    vietnameseMarkerCount (str ("ă")) = 1 :=
  ⟨by decide, by decide⟩

end Govhack.detection

namespace Govhack.gender

/-- `Inference` from the gender package. -/
structure Inference where
  value : String
  confidence : ℚ
  source : String
  reason : String
deriving DecidableEq, Repr

/-- `Engine` from the gender package. -/
structure Engine where
  useStatistical : Bool
  culturalOnly : Bool

/-- `looksVietnamese` from the gender package. -/
def looksVietnamese (text : Str) : Bool :=
  let lower := goToLower text
  ([str ("ă"), str ("â"), str ("đ"), str ("ê"), str ("ô"), str ("ơ"), str ("ư"),
    str ("thị"), str ("văn")].countP (fun marker => containsStr lower marker)) ≥ 2

/-- `looksArabic` from the gender package. -/
def looksArabic (text : Str) : Bool :=
  text.any (fun r => 0x600 ≤ r && r ≤ 0x6FF)

/-- Male marker fragments of `inferVietnamese`. -/
def vietMaleMarkers : List Str :=
  [str ("minh"), str ("duc"), str ("hoang"), str ("quang"), str ("thanh"),
   str ("tuan"), str ("hung"), str ("dung"), str ("phong")]

/-- Female marker fragments of `inferVietnamese`. -/
def vietFemaleMarkers : List Str :=
  [str ("linh"), str ("mai"), str ("lan"), str ("yen"), str ("huong"),
   str ("ngoc"), str ("thuy"), str ("anh"), str ("ha")]

/-- `inferVietnamese` from the gender package. -/
def inferVietnamese (original transliterated : Str) : Inference :=
  let originalLower := goToLower original
  let transliteratedLower := goToLower transliterated
  if containsStr originalLower (str ("văn")) ||
     containsStr transliteratedLower (str ("van")) then
    ⟨"M", 0.85, "cultural_marker", "Vietnamese marker \x27Văn\x27 typically indicates male"⟩
  else if containsStr originalLower (str ("thị")) ||
          containsStr transliteratedLower (str ("thi")) then
    ⟨"F", 0.85, "cultural_marker", "Vietnamese marker \x27Thị\x27 typically indicates female"⟩
  else
    match vietMaleMarkers.find? (fun m => containsStr transliteratedLower m) with
    | some _ => ⟨"M", 0.65, "cultural_marker", "Vietnamese name pattern suggests male"⟩
    | none =>
      match vietFemaleMarkers.find? (fun m => containsStr transliteratedLower m) with
      | some _ => ⟨"F", 0.65, "cultural_marker", "Vietnamese name pattern suggests female"⟩
      | none => ⟨"X", 0.1, "unknown", "No Vietnamese gender markers found"⟩

/-- Male name fragments of `inferArabic`. -/
def arabicMaleNames : List Str :=
  [str ("ahmad"), str ("muhammad"), str ("ali"), str ("omar"), str ("khalid"),
   str ("hassan"), str ("ibrahim"), str ("yousef"), str ("abdullah")]

/-- Female name fragments of `inferArabic`. -/
def arabicFemaleNames : List Str :=
  [str ("fatima"), str ("aisha"), str ("sarah"), str ("mariam"), str ("zahra"),
   str ("layla"), str ("amina"), str ("khadija"), str ("nour")]

/-- `inferArabic` from the gender package. -/
def inferArabic (text : Str) : Inference :=
  let textLower := goToLower text
  if containsStr textLower (str ("bin\x20")) || containsStr textLower (str ("ibn\x20")) then
    ⟨"M", 0.90, "cultural_marker", "Arabic patronymic \x27bin/ibn\x27 (son of) indicates male"⟩
  else if containsStr textLower (str ("bint\x20")) || containsStr textLower (str ("binte\x20")) then
    ⟨"F", 0.90, "cultural_marker", "Arabic patronymic \x27bint\x27 (daughter of) indicates female"⟩
  else
    match arabicMaleNames.find? (fun n => containsStr textLower n) with
    | some _ => ⟨"M", 0.75, "cultural_marker", "Common Arabic male name pattern"⟩
    | none =>
      match arabicFemaleNames.find? (fun n => containsStr textLower n) with
      | some _ => ⟨"F", 0.75, "cultural_marker", "Common Arabic female name pattern"⟩
      | none => ⟨"X", 0.1, "unknown", "No Arabic gender markers found"⟩

/-- Male name fragments of `inferIndonesian`. -/
def indonesianMaleNames : List Str :=
  [str ("ahmad"), str ("muhammad"), str ("adi"), str ("budi"), str ("eko"),
   str ("hadi"), str ("indra"), str ("joko"), str ("rudi")]

/-- Female name fragments of `inferIndonesian`. -/
def indonesianFemaleNames : List Str :=
  [str ("sari"), str ("dewi"), str ("rina"), str ("maya"), str ("indah"),
   str ("fitri"), str ("wati"), str ("ning"), str ("sri")]

/-- `inferIndonesian` from the gender package. -/
def inferIndonesian (text : Str) : Inference :=
  let textLower := goToLower text
  if containsStr textLower (str ("bin\x20")) then
    ⟨"M", 0.88, "cultural_marker",
     "Malay/Indonesian patronymic \x27bin\x27 (son of) indicates male"⟩
  else if containsStr textLower (str ("binti\x20")) || containsStr textLower (str ("binte\x20")) then
    ⟨"F", 0.88, "cultural_marker",
     "Malay/Indonesian patronymic \x27binti\x27 (daughter of) indicates female"⟩
  else
    match indonesianMaleNames.find? (fun n => containsStr textLower n) with
    | some _ => ⟨"M", 0.70, "cultural_marker", "Indonesian male name pattern"⟩
    | none =>
      match indonesianFemaleNames.find? (fun n => containsStr textLower n) with
      | some _ => ⟨"F", 0.70, "cultural_marker", "Indonesian female name pattern"⟩
      | none => ⟨"X", 0.1, "unknown", "No Indonesian gender markers found"⟩

/-- Male indicators of `inferChinese`. -/
def chineseMaleIndicators : List Str :=
  [str ("jian"), str ("ming"), str ("wei"), str ("gang"), str ("jun"),
   str ("qiang"), str ("lei"), str ("bin")]

/-- Female indicators of `inferChinese`. -/
def chineseFemaleIndicators : List Str :=
  [str ("li"), str ("mei"), str ("hua"), str ("yan"), str ("hong"),
   str ("ping"), str ("na"), str ("jing"), str ("xue")]

/-- `inferChinese` from the gender package. -/
def inferChinese (original transliterated : Str) : Inference :=
  let textLower := goToLower transliterated
  match chineseMaleIndicators.find? (fun n => containsStr textLower n) with
  | some _ => ⟨"M", 0.55, "statistical", "Chinese name element suggests male (low confidence)"⟩
  | none =>
    match chineseFemaleIndicators.find? (fun n => containsStr textLower n) with
    | some _ => ⟨"F", 0.55, "statistical", "Chinese name element suggests female (low confidence)"⟩
    | none => ⟨"X", 0.1, "unknown",
               "Chinese names require cultural knowledge for gender inference"⟩

/-- `inferJapanese` from the gender package. -/
def inferJapanese (original transliterated : Str) : Inference :=
  let textLower := goToLower transliterated
  if trailsWith textLower (str ("ko")) || trailsWith textLower (str ("mi")) ||
     trailsWith textLower (str ("ka")) then
    ⟨"F", 0.70, "cultural_marker", "Japanese name ending suggests female"⟩
  else if trailsWith textLower (str ("ro")) || trailsWith textLower (str ("ta")) ||
          trailsWith textLower (str ("ki")) then
    ⟨"M", 0.60, "cultural_marker", "Japanese name ending suggests male"⟩
  else ⟨"X", 0.1, "unknown", "Japanese gender inference requires cultural context"⟩

/-- `inferKorean` from the gender package. -/
def inferKorean (original transliterated : Str) : Inference :=
  ⟨"X", 0.1, "unknown", "Korean names require cultural knowledge for gender inference"⟩

/-- Male name fragments of `inferIndian`. -/
def indianMaleNames : List Str :=
  [str ("raj"), str ("kumar"), str ("singh"), str ("dev"), str ("krishna"),
   str ("ram"), str ("sharma"), str ("gupta"), str ("anil"), str ("sunil")]

/-- Female name fragments of `inferIndian`. -/
def indianFemaleNames : List Str :=
  [str ("devi"), str ("kumari"), str ("priya"), str ("sita"), str ("gita"),
   str ("lata"), str ("rani"), str ("shanti"), str ("maya"), str ("radha")]

/-- `inferIndian` from the gender package. -/
def inferIndian (text : Str) : Inference :=
  let textLower := goToLower text
  match indianMaleNames.find? (fun n => containsStr textLower n) with
  | some _ => ⟨"M", 0.75, "cultural_marker", "Indian male name pattern"⟩
  | none =>
    match indianFemaleNames.find? (fun n => containsStr textLower n) with
    | some _ => ⟨"F", 0.75, "cultural_marker", "Indian female name pattern"⟩
    | none => ⟨"X", 0.1, "unknown", "No Indian gender markers found"⟩

/-- `inferThai` from the gender package. -/
def inferThai (text : Str) : Inference :=
  ⟨"X", 0.1, "unknown", "Thai names require cultural knowledge for gender inference"⟩

/-- Exact-match male names of `inferWestern`. -/
def westernMaleNames : List Str :=
  [str ("john"), str ("david"), str ("michael"), str ("james"), str ("robert"),
   str ("william"), str ("richard"), str ("thomas"), str ("mark"), str ("daniel")]

/-- Exact-match female names of `inferWestern`. -/
def westernFemaleNames : List Str :=
  [str ("mary"), str ("patricia"), str ("jennifer"), str ("linda"), str ("elizabeth"),
   str ("barbara"), str ("susan"), str ("jessica"), str ("sarah"), str ("karen")]

/-- `inferWestern` from the gender package: exact word matches first, then
(when statistics are enabled) terminal-pattern heuristics; Go measures the
word length in bytes. -/
def inferWestern (e : Engine) (text : Str) (language : String) : Inference :=
  let textLower := goToLower text
  let words := fields textLower
  match words.findSome? (fun word =>
      if westernMaleNames.contains word then
        some (⟨"M", 0.85, "statistical", "Common Western male name"⟩ : Inference)
      else if westernFemaleNames.contains word then
        some ⟨"F", 0.85, "statistical", "Common Western female name"⟩
      else none) with
  | some inf => inf
  | none =>
    if e.useStatistical then
      match words.findSome? (fun word =>
          if utf8Len word > 2 then
            if trailsWith word (str ("a")) || trailsWith word (str ("ia")) ||
               trailsWith word (str ("ina")) then
              some (⟨"F", 0.60, "statistical", "Name ending pattern suggests female"⟩ : Inference)
            else if trailsWith word (str ("er")) || trailsWith word (str ("on")) ||
                    trailsWith word (str ("us")) then
              some ⟨"M", 0.55, "statistical", "Name ending pattern suggests male"⟩
            else none
          else none) with
      | some inf => inf
      | none => ⟨"X", 0.1, "unknown", "No Western gender indicators found"⟩
    else ⟨"X", 0.1, "unknown", "No Western gender indicators found"⟩

/-- `inferFromCulturalMarkers` from the gender package: ordered dispatch on
culture, language and script heuristics. -/
def inferFromCulturalMarkers (e : Engine) (original transliterated : Str)
    (culture language : String) : Inference :=
  if culture = "vietnamese" ∨ language = "vi" ∨ looksVietnamese original then
    inferVietnamese original transliterated
  else if culture = "arabic" ∨ language = "ar" ∨ looksArabic original then
    inferArabic transliterated
  else if culture = "indonesian" ∨ culture = "malaysian" ∨
          containsS language ("id") ∨ containsS language ("ms") then
    inferIndonesian transliterated
  else if culture = "chinese" ∨ language = "zh" ∨ language = "zh-CN" ∨
          language = "zh-TW" then
    inferChinese original transliterated
  else if culture = "japanese" ∨ language = "ja" then
    inferJapanese original transliterated
  else if culture = "korean" ∨ language = "ko" then
    inferKorean original transliterated
  else if culture = "indian" ∨ language = "hi" ∨ language = "ta" ∨ language = "te" then
    inferIndian transliterated
  else if culture = "thai" ∨ language = "th" then
    inferThai transliterated
  else inferWestern e transliterated language

/-- `inferFromStatisticalPatterns` from the gender package (a placeholder in
the source). -/
def inferFromStatisticalPatterns (e : Engine) (text : Str)
    (culture language : String) : Inference :=
  if ¬ e.useStatistical then ⟨"X", 0.0, "disabled", ""⟩
  else ⟨"X", 0.2, "statistical", "Statistical analysis inconclusive"⟩

/-- `Engine.InferGender` from the gender package: cultural markers first,
then the statistical fallback when enabled and the cultural result is weak. -/
def InferGender (e : Engine) (originalText transliteratedText : Str)
    (culture language : String) : Inference :=
  let result : Inference := ⟨"X", 0.1, "unknown", "No gender indicators found"⟩
  let cultural := inferFromCulturalMarkers e originalText transliteratedText culture language
  let result := if cultural.confidence > result.confidence then cultural else result
  if e.useStatistical ∧ result.confidence < 0.5 then
    let statistical := inferFromStatisticalPatterns e transliteratedText culture language
    if statistical.confidence > result.confidence then statistical else result
  else result

end Govhack.gender

namespace Govhack.gender

/-- The bounds package Claim C8 asserts for the gender engine: value among
M/F/X, confidence within [0.1, 0.95], and an unknown source only for the
default X/0.1 result. -/
def infOk (i : Inference) : Prop :=
  (i.value = "M" ∨ i.value = "F" ∨ i.value = "X") ∧
  1/10 ≤ i.confidence ∧ i.confidence ≤ 95/100 ∧
  (i.source = "unknown" → i.value = "X" ∧ i.confidence = 1/10)

lemma infOk_inferVietnamese (original transliterated : Str) :
    infOk (inferVietnamese original transliterated) := by
  unfold inferVietnamese
  dsimp only
  repeat' split
  all_goals refine ⟨by simp, by norm_num, by norm_num, ?_⟩
  all_goals intro h
  all_goals first
    | exact ⟨rfl, by norm_num⟩
    | simp at h

lemma infOk_inferArabic (text : Str) : infOk (inferArabic text) := by
  unfold inferArabic
  dsimp only
  repeat' split
  all_goals refine ⟨by simp, by norm_num, by norm_num, ?_⟩
  all_goals intro h
  all_goals first
    | exact ⟨rfl, by norm_num⟩
    | simp at h

lemma infOk_inferIndonesian (text : Str) : infOk (inferIndonesian text) := by
  unfold inferIndonesian
  dsimp only
  repeat' split
  all_goals refine ⟨by simp, by norm_num, by norm_num, ?_⟩
  all_goals intro h
  all_goals first
    | exact ⟨rfl, by norm_num⟩
    | simp at h

lemma infOk_inferChinese (original transliterated : Str) :
    infOk (inferChinese original transliterated) := by
  unfold inferChinese
  dsimp only
  repeat' split
  all_goals refine ⟨by simp, by norm_num, by norm_num, ?_⟩
  all_goals intro h
  all_goals first
    | exact ⟨rfl, by norm_num⟩
    | simp at h

lemma infOk_inferJapanese (original transliterated : Str) :
    infOk (inferJapanese original transliterated) := by
  unfold inferJapanese
  dsimp only
  repeat' split
  all_goals refine ⟨by simp, by norm_num, by norm_num, ?_⟩
  all_goals intro h
  all_goals first
    | exact ⟨rfl, by norm_num⟩
    | simp at h

lemma infOk_inferKorean (original transliterated : Str) :
    infOk (inferKorean original transliterated) :=
  ⟨by simp [inferKorean], by norm_num [inferKorean], by norm_num [inferKorean],
   fun _ => ⟨rfl, by norm_num [inferKorean]⟩⟩

lemma infOk_inferIndian (text : Str) : infOk (inferIndian text) := by
  unfold inferIndian
  dsimp only
  repeat' split
  all_goals refine ⟨by simp, by norm_num, by norm_num, ?_⟩
  all_goals intro h
  all_goals first
    | exact ⟨rfl, by norm_num⟩
    | simp at h

lemma infOk_inferThai (text : Str) : infOk (inferThai text) :=
  ⟨by simp [inferThai], by norm_num [inferThai], by norm_num [inferThai],
   fun _ => ⟨rfl, by norm_num [inferThai]⟩⟩

lemma infOk_inferWestern (e : Engine) (text : Str) (language : String) :
    infOk (inferWestern e text language) := by
  unfold inferWestern
  dsimp only
  split
  · rename_i inf hfind
    rcases List.exists_of_findSome?_eq_some hfind with ⟨w, hw, hfw⟩
    revert hfw
    split
    · intro h
      cases h
      exact ⟨by simp, by norm_num, by norm_num, fun h => by simp at h⟩
    split
    · intro h
      cases h
      exact ⟨by simp, by norm_num, by norm_num, fun h => by simp at h⟩
    · intro h
      cases h
  · split
    · split
      · rename_i inf hfind
        rcases List.exists_of_findSome?_eq_some hfind with ⟨w, hw, hfw⟩
        revert hfw
        repeat' split
        all_goals intro h
        all_goals try cases h
        · exact ⟨by simp, by norm_num, by norm_num, fun h => by simp at h⟩
        · exact ⟨by simp, by norm_num, by norm_num, fun h => by simp at h⟩
      · exact ⟨by simp, by norm_num, by norm_num, fun _ => ⟨rfl, by norm_num⟩⟩
    · exact ⟨by simp, by norm_num, by norm_num, fun _ => ⟨rfl, by norm_num⟩⟩

lemma infOk_cultural (e : Engine) (original transliterated : Str)
    (culture language : String) :
    infOk (inferFromCulturalMarkers e original transliterated culture language) := by
  unfold inferFromCulturalMarkers
  split
  · exact infOk_inferVietnamese original transliterated
  split
  · exact infOk_inferArabic transliterated
  split
  · exact infOk_inferIndonesian transliterated
  split
  · exact infOk_inferChinese original transliterated
  split
  · exact infOk_inferJapanese original transliterated
  split
  · exact infOk_inferKorean original transliterated
  split
  · exact infOk_inferIndian transliterated
  split
  · exact infOk_inferThai transliterated
  · exact infOk_inferWestern e transliterated language

lemma infOk_default :
    infOk ⟨"X", 0.1, "unknown", "No gender indicators found"⟩ :=
  ⟨by simp, by norm_num, by norm_num, fun _ => ⟨rfl, by norm_num⟩⟩

lemma infOk_ite (P : Prop) [Decidable P] {a b : Inference}
    (ha : infOk a) (hb : infOk b) : infOk (if P then a else b) := by
  split
  · exact ha
  · exact hb

lemma infOk_InferGender (e : Engine) (originalText transliteratedText : Str)
    (culture language : String) :
    infOk (InferGender e originalText transliteratedText culture language) := by
  have hc := infOk_cultural e originalText transliteratedText culture language
  unfold InferGender
  dsimp only
  by_cases hstat : e.useStatistical = true
  · have h2 : infOk (inferFromStatisticalPatterns e transliteratedText culture language) := by
      unfold inferFromStatisticalPatterns
      rw [if_neg (not_not_intro hstat)]
      exact ⟨by simp, by norm_num, by norm_num, fun h => by simp at h⟩
    exact infOk_ite _ (infOk_ite _ h2 (infOk_ite _ hc infOk_default))
      (infOk_ite _ hc infOk_default)
  · rw [if_neg (fun hh => hstat hh.1)]
    exact infOk_ite _ hc infOk_default

end Govhack.gender

namespace Govhack

lemma toUpperN_idem (r : Nat) : toUpperN (toUpperN r) = toUpperN r := by
  by_cases h : 97 ≤ r ∧ r ≤ 122
  · simp only [toUpperN, if_pos h]
    rw [if_neg]
    omega
  · simp only [toUpperN, if_neg h]

lemma toLowerN_toUpperN (r : Nat) : toLowerN (toUpperN r) = toLowerN r := by
  by_cases h : 97 ≤ r ∧ r ≤ 122
  · simp only [toUpperN, toLowerN, if_pos h]
    rw [if_pos (by omega), if_neg (by omega)]
    omega
  · simp only [toUpperN, if_neg h]

lemma toLowerN_idem (r : Nat) : toLowerN (toLowerN r) = toLowerN r := by
  by_cases h : 65 ≤ r ∧ r ≤ 90
  · simp only [toLowerN, if_pos h]
    rw [if_neg]
    omega
  · simp only [toLowerN, if_neg h]

lemma goToUpper_idem (s : Str) : goToUpper (goToUpper s) = goToUpper s := by
  simp only [goToUpper, List.map_map]
  exact List.map_congr_left fun r _ => toUpperN_idem r

lemma goToLower_idem (s : Str) : goToLower (goToLower s) = goToLower s := by
  simp only [goToLower, List.map_map]
  exact List.map_congr_left fun r _ => toLowerN_idem r

lemma goToLower_goTitleAux (T : UTables) (prev : Nat) (s : Str) :
    goToLower (goTitleAux T prev s) = goToLower s := by
  induction s generalizing prev with
  | nil => rfl
  | cons c rest ih =>
    simp only [goTitleAux, goToLower, List.map_cons] at *
    congr 1
    · split
      · exact toLowerN_toUpperN c
      · rfl
    · exact ih c

lemma titleLower_idem (T : UTables) (s : Str) :
    titleLower T (titleLower T s) = titleLower T s := by
  have h1 : goToLower (titleLower T s) = goToLower s := by
    simpa only [titleLower, goTitle, goToLower_idem]
      using goToLower_goTitleAux T 32 (goToLower s)
  simp only [titleLower, goTitle] at *
  rw [h1]

/-- Family names are produced by `strings.ToUpper`; fully uppercase means
being a fixed point of that conversion. -/
def allCaps (s : Str) : Prop := goToUpper s = s

/-- First and middle names are produced by `strings.Title(strings.ToLower(..))`;
title-cased means being a fixed point of that conversion. -/
def titleCasedStr (T : UTables) (s : Str) : Prop := titleLower T s = s

lemma allCaps_goToUpper (s : Str) : allCaps (goToUpper s) := goToUpper_idem s

lemma titleCasedStr_titleLower (T : UTables) (s : Str) :
    titleCasedStr T (titleLower T s) := titleLower_idem T s

/-- Number of name tokens in the family/first/middle components. -/
def nameTokens (ns : NameStructure) : Nat :=
  (if ns.family = [] then 0 else 1) + (if ns.first = [] then 0 else 1) + ns.middle.length

/-- Token count the spec claims is conserved: name tokens plus titles. -/
def claimTokens (ns : NameStructure) : Nat := nameTokens ns + ns.titles.length

/-- Every output string is pure ASCII. -/
def asciiOnly (s : Str) : Bool := s.all (fun r => r < 128)

lemma asciiOnly_append (a b : Str) :
    asciiOnly (a ++ b) = (asciiOnly a && asciiOnly b) := List.all_append

lemma mapLookup_ascii (pairs : List (Char × String)) (r : Nat)
    (hp : pairs.all (fun p => asciiOnly (str p.2)) = true) :
    asciiOnly (mapLookup pairs r) = true := by
  unfold mapLookup
  cases h : pairs.find? (fun p => p.1.toNat == r) with
  | none => rfl
  | some p =>
    exact List.all_eq_true.mp hp p (List.mem_of_find?_eq_some h)

lemma asciiPairs_values_ascii :
    asciiPairs.all (fun p => asciiOnly (str p.2)) = true := by decide

lemma chinesePairs_values_ascii :
    chinesePairs.all (fun p => asciiOnly (str p.2)) = true := by decide

lemma approximateToASCII_ascii (T : UTables) (r : Nat) :
    asciiOnly (approximateToASCII T r) = true := by
  by_cases hm : mapLookup asciiPairs r = []
  · by_cases h1 : r < 128
    · simp [approximateToASCII, hm, asciiOnly, h1]
    · simp only [approximateToASCII, hm, ne_eq, not_true_eq_false, if_false,
        if_neg h1]
      repeat' split
      all_goals rfl
  · have := mapLookup_ascii asciiPairs r asciiPairs_values_ascii
    simp [approximateToASCII, hm, this]

lemma applyBuiltinRules_ascii_target (r : Nat) (inputScript : String) :
    asciiOnly (applyBuiltinRules r inputScript ("ascii")) = true := by
  unfold applyBuiltinRules
  rw [if_neg (fun h => absurd h.2 (by decide))]
  by_cases hc : inputScript = "chinese"
  · rw [if_pos ⟨hc, Or.inr rfl⟩]
    exact mapLookup_ascii chinesePairs r chinesePairs_values_ascii
  · rw [if_neg (fun h => hc h.1), if_neg (fun h => absurd h.2 (by decide)),
      if_neg (fun h => absurd h.2 (by decide))]
    rfl

lemma transliterateRuneStep_ascii (T : UTables) (r : Nat) (inputScript : String)
    (inputLocale : Option String) :
    asciiOnly (transliterateRuneStep T noLookup r inputScript ("ascii") inputLocale)
      = true := by
  by_cases hb : applyBuiltinRules r inputScript ("ascii") = []
  · simp [transliterateRuneStep, noLookup, hb, approximateToASCII_ascii T r]
  · simp [transliterateRuneStep, noLookup, hb,
      applyBuiltinRules_ascii_target r inputScript]

/-- Claim C4: with the target script ascii and no database mapping, every rune
of the transliteration output lies below code point 128. -/
theorem performTransliteration_ascii_output (T : UTables) (text : Str)
    (inputScript : String) (inputLocale : Option String) :
    asciiOnly (performTransliteration T noLookup text inputScript ("ascii") inputLocale)
      = true := by
  unfold performTransliteration
  rw [asciiOnly, List.all_eq_true]
  intro r hr
  rcases List.mem_flatten.mp hr with ⟨l, hl, hrl⟩
  rcases List.mem_map.mp hl with ⟨c, _, rfl⟩
  exact List.all_eq_true.mp
    (transliterateRuneStep_ascii T c inputScript inputLocale) r hrl

lemma asciiPairs_keys_high :
    asciiPairs.all (fun p => 128 ≤ p.1.toNat) = true := by decide

lemma approximateToASCII_fixed (T : UTables) (r : Nat) (h : r < 128) :
    approximateToASCII T r = [r] := by
  have hfind : asciiPairs.find? (fun p => p.1.toNat == r) = none := by
    rw [List.find?_eq_none]
    intro p hp
    have := List.all_eq_true.mp asciiPairs_keys_high p hp
    simp only [decide_eq_true_eq] at this
    simp only [beq_iff_eq]
    omega
  simp [approximateToASCII, mapLookup, hfind, h]

lemma applyBuiltinRules_ascii_ascii (r : Nat) :
    applyBuiltinRules r ("ascii") "ascii" = [] := by
  unfold applyBuiltinRules
  rw [if_neg (by decide), if_neg (by decide), if_neg (by decide), if_neg (by decide)]

lemma transliterateRuneStep_fixed (T : UTables) (r : Nat)
    (inputLocale : Option String) (h : r < 128) :
    transliterateRuneStep T noLookup r ("ascii") "ascii" inputLocale = [r] := by
  simp [transliterateRuneStep, noLookup, applyBuiltinRules_ascii_ascii r,
    approximateToASCII_fixed T r h]

/-- Claim C9: transliterating an all-ASCII text from ascii to ascii with no
database mapping is the identity. -/
theorem performTransliteration_ascii_fixed (T : UTables) (text : Str)
    (inputLocale : Option String) (h : asciiOnly text = true) :
    performTransliteration T noLookup text ("ascii") "ascii" inputLocale = text := by
  induction text with
  | nil => rfl
  | cons c rest ih =>
    rw [asciiOnly, List.all_cons, Bool.and_eq_true] at h
    have hc : c < 128 := by simpa using h.1
    have hrest : performTransliteration T noLookup rest ("ascii") "ascii" inputLocale
        = rest := ih h.2
    show (List.map _ (c :: rest)).flatten = c :: rest
    rw [List.map_cons, List.flatten_cons, transliterateRuneStep_fixed T c inputLocale hc]
    rw [show (List.map (fun r =>
      transliterateRuneStep T noLookup r ("ascii") "ascii" inputLocale) rest).flatten
      = rest from hrest]
    rfl

/-- Claim C9 witness: an ascii-to-ascii round trip on a concrete string. -/
theorem performTransliteration_ascii_fixed_witness :
    performTransliteration stdT noLookup (str ("Abc xyz")) "ascii" "ascii" none
      = str ("Abc xyz") :=
  performTransliteration_ascii_fixed stdT (str ("Abc xyz")) none (by decide)

/-- Claim C7: when transliteration of a non-empty text produces the empty
string, the validated operation reports the empty-result error instead of
succeeding. -/
theorem emptyResult_is_error (T : UTables) (lookup : Lookup) (text : Str)
    (inputScript outputScript : String) (inputLocale : Option String)
    (hne : text ≠ [])
    (hout : performTransliteration T lookup text inputScript outputScript inputLocale = []) :
    performTransliterationWithValidation T lookup text inputScript outputScript inputLocale
      = .error ("transliteration produced empty result") := by
  unfold performTransliterationWithValidation
  rw [if_neg hne, if_pos hout]

/-- Claim C7 witness: the copyright sign maps to nothing under latin to ascii,
and the validated operation reports the error on that input. -/
theorem emptyResult_is_error_witness :
    performTransliterationWithValidation stdT noLookup (str ("©")) "latin" "ascii" none
      = .error ("transliteration produced empty result") :=
  emptyResult_is_error stdT noLookup (str ("©")) "latin" "ascii" none
    (by decide) (by decide)

/-- The bounds package Claim C8 asserts for the service gender inference. -/
def genderOk (g : GenderInference) : Prop :=
  (g.value = "M" ∨ g.value = "F" ∨ g.value = "X") ∧
  1/10 ≤ g.confidence ∧ g.confidence ≤ 95/100 ∧
  (g.source = "unknown" → g.value = "X" ∧ g.confidence = 1/10)

/-- Claim C8: both gender inference implementations (the service `inferGender`
and the gender package `Engine.InferGender`) always return a value in
{M, F, X} with confidence in [0.1, 0.95], and the unknown source occurs only
for the default X result with confidence 0.1. -/
theorem genderInference_bounds (originalText transliteratedText : Str)
    (inputScript : String) (e : gender.Engine) (culture language : String) :
    genderOk (inferGender originalText transliteratedText inputScript) ∧
    gender.infOk
      (gender.InferGender e originalText transliteratedText culture language) := by
  constructor
  · unfold inferGender
    dsimp only
    repeat' split
    all_goals refine ⟨by simp, by norm_num, by norm_num, ?_⟩
    all_goals intro h
    all_goals first
      | exact ⟨rfl, by norm_num⟩
      | simp at h
  · exact gender.infOk_InferGender e originalText transliteratedText culture language

/-- Claim C8 witness: the bounds instantiated on a concrete Vietnamese name
for both implementations. -/
theorem genderInference_bounds_witness :
    genderOk (inferGender (str ("Nguyễn Văn Minh")) (str ("Nguyen Van Minh"))
      "vietnamese") ∧
    gender.infOk (gender.InferGender ⟨true, false⟩ (str ("Nguyễn Văn Minh"))
      (str ("Nguyen Van Minh")) "vietnamese" ("vi")) :=
  genderInference_bounds (str ("Nguyễn Văn Minh")) (str ("Nguyen Van Minh"))
    "vietnamese" ⟨true, false⟩ "vietnamese" ("vi")

/-- The invariant package of one culture split: family uppercase, first and
middle title-cased, and at most `parts` name tokens produced. -/
def splitOk (T : UTables) (parts : Nat) (ns : NameStructure) : Prop :=
  (ns.family = [] ∨ allCaps ns.family) ∧
  (ns.first = [] ∨ titleCasedStr T ns.first) ∧
  (∀ m ∈ ns.middle, titleCasedStr T m) ∧
  nameTokens ns ≤ parts

lemma splitOk_empty (T : UTables) (titles : List Str) (text : Str) (n : Nat) :
    splitOk T n ⟨[], [], [], titles, text⟩ := by
  refine ⟨Or.inl rfl, Or.inl rfl, by simp, ?_⟩
  simp [nameTokens]

lemma splitOk_single (T : UTables) (p : Str) (titles : List Str) (tail : Str) (n : Nat)
    (hn : 1 ≤ n) :
    splitOk T n ⟨[], titleLower T p, [], titles, tail⟩ := by
  refine ⟨Or.inl rfl, Or.inr (titleCasedStr_titleLower T p), by simp, ?_⟩
  simp only [nameTokens, List.length_nil, if_true]
  split <;> omega

lemma splitOk_full (T : UTables) (fam fst : Str) (mid : List Str) (titles : List Str)
    (tail : Str) (n : Nat) (hn : 2 + mid.length ≤ n) :
    splitOk T n ⟨goToUpper fam, titleLower T fst, mid.map (titleLower T), titles, tail⟩ := by
  refine ⟨Or.inr (allCaps_goToUpper fam), Or.inr (titleCasedStr_titleLower T fst), ?_, ?_⟩
  · intro m hm
    rcases List.mem_map.mp hm with ⟨x, _, rfl⟩
    exact titleCasedStr_titleLower T x
  · simp only [nameTokens, List.length_map]
    split <;> split <;> omega

lemma parseWesternName_ok (T : UTables) (text : Str) (titles : List Str) :
    splitOk T (fields text).length (parseWesternName T text titles) := by
  rcases hf : fields text with _ | ⟨p, _ | ⟨q, _ | ⟨r, rest⟩⟩⟩ <;>
    simp only [parseWesternName, hf]
  · exact splitOk_empty T titles text 0
  · exact splitOk_single T p titles _ 1 (by omega)
  · have := splitOk_full T q p ([] : List Str) titles
      (formatFullName (goToUpper q) (titleLower T p) [] titles) 2 (by simp)
    simpa using this
  · refine splitOk_full T _ p _ titles _ _ ?_
    simp only [List.length_dropLast, List.length_cons]
    omega

lemma parseChineseName_ok (T : UTables) (text : Str) (titles : List Str) :
    splitOk T (fields text).length (parseChineseName T text titles) := by
  rcases hf : fields text with _ | ⟨p, _ | ⟨q, _ | ⟨r, rest⟩⟩⟩ <;>
    simp only [parseChineseName, hf]
  · exact splitOk_empty T titles text 0
  · exact splitOk_single T p titles _ 1 (by omega)
  · have := splitOk_full T p q ([] : List Str) titles
      (formatFullName (goToUpper p) (titleLower T q) [] titles) 2 (by simp)
    simpa using this
  · refine splitOk_full T p _ _ titles _ _ ?_
    simp only [List.length_dropLast, List.length_cons]
    omega

lemma parseArabicName_ok (T : UTables) (text : Str) (titles : List Str) :
    splitOk T (fields text).length (parseArabicName T text titles) := by
  rcases hf : fields text with _ | ⟨p, _ | ⟨q, rest⟩⟩ <;>
    simp only [parseArabicName, hf]
  · exact splitOk_empty T titles text 0
  · exact splitOk_single T p titles _ 1 (by omega)
  · refine splitOk_full T _ p _ titles _ _ ?_
    simp only [List.length_dropLast, List.length_cons]
    omega

lemma parseVietnameseName_ok (T : UTables) (original text : Str) (titles : List Str) :
    splitOk T (fields text).length (parseVietnameseName T original text titles) := by
  rcases hf : fields text with _ | ⟨p, _ | ⟨q, rest⟩⟩ <;>
    simp only [parseVietnameseName, hf]
  · exact splitOk_empty T titles text 0
  · exact splitOk_single T p titles _ 1 (by omega)
  · refine splitOk_full T p _ _ titles _ _ ?_
    have hle : ((q :: rest).dropLast.filter (fun part =>
        decide (goToLower part ≠ str ("van") ∧ goToLower part ≠ str ("thi") ∧
          goToLower part ≠ str ("văn") ∧ goToLower part ≠ str ("thị")))).length
        ≤ (q :: rest).dropLast.length := List.length_filter_le _ _
    simp only [List.length_dropLast, List.length_cons] at hle ⊢
    omega

lemma parseMononymOrPatronymic_ok (T : UTables) (text : Str) (titles : List Str)
    (script : String) :
    splitOk T (fields text).length (parseMononymOrPatronymic T text titles script) := by
  rcases hf : fields text with _ | ⟨p, _ | ⟨q, rest⟩⟩ <;>
    simp only [parseMononymOrPatronymic, hf]
  · exact splitOk_empty T titles text 0
  · exact splitOk_single T p titles _ 1 (by omega)
  · split
    · refine ⟨Or.inl rfl, Or.inr (titleCasedStr_titleLower T p), ?_, ?_⟩
      · intro m hm
        rcases List.mem_map.mp hm with ⟨x, _, rfl⟩
        exact titleCasedStr_titleLower T x
      · simp only [nameTokens, List.length_map, List.length_cons, if_true]
        split <;> omega
    · refine splitOk_full T _ p _ titles _ _ ?_
      simp only [List.length_dropLast, List.length_cons]
      omega

/-- Claim C2 (amended): every name structure the parser returns has an empty
or fully upper-case family, empty or title-cased first and middle entries, and
at most as many family/first/middle tokens as the transliterated text has
after title removal. -/
theorem parseName_invariants (T : UTables) (originalText transliteratedText : Str)
    (inputScript : String) (ns : NameStructure)
    (h : parseName T originalText transliteratedText inputScript = some ns) :
    (ns.family = [] ∨ allCaps ns.family) ∧
    (ns.first = [] ∨ titleCasedStr T ns.first) ∧
    (∀ m ∈ ns.middle, titleCasedStr T m) ∧
    nameTokens ns ≤
      (fields (removeTitles T transliteratedText
        (extractTitles transliteratedText))).length := by
  unfold parseName at h
  split at h
  · exact absurd h (by simp)
  · replace h := Option.some.inj h
    subst h
    split
    · exact parseChineseName_ok T _ _
    split
    · exact parseVietnameseName_ok T _ _ _
    split
    · exact parseArabicName_ok T _ _
    split
    · exact parseMononymOrPatronymic_ok T _ _ _
    exact parseWesternName_ok T _ _

/-- Claim C2 witness: the invariants instantiated on a concrete three-token
Western name. -/
theorem parseName_invariants_witness :
    (let ns : NameStructure := ⟨str ("WATSON"), str ("Mary"), [str ("Jane")], [],
        str ("Mary Jane WATSON")⟩
     (ns.family = [] ∨ allCaps ns.family) ∧
     (ns.first = [] ∨ titleCasedStr stdT ns.first) ∧
     (∀ m ∈ ns.middle, titleCasedStr stdT m) ∧
     nameTokens ns ≤
       (fields (removeTitles stdT (str ("Mary Jane Watson"))
         (extractTitles (str ("Mary Jane Watson"))))).length) :=
  parseName_invariants stdT (str ("Mary Jane Watson")) (str ("Mary Jane Watson"))
    "latin" _ (by decide)

/-- Claim C2 counterexample: on the input Doctor Smith the parser keeps the title
token Doctor as the first name while also reporting the title DR, so the
family, first, middle and titles together hold three tokens although the
transliterated input has only two. -/
theorem parseName_token_claim_cx :
    parseName stdT (str ("Doctor Smith")) (str ("Doctor Smith")) "latin"
      = some ⟨str ("SMITH"), str ("Doctor"), [], [str ("DR")],
              str ("DR Doctor SMITH")⟩ ∧
    (fields (str ("Doctor Smith"))).length = 2 ∧
    ¬ claimTokens ⟨str ("SMITH"), str ("Doctor"), [], [str ("DR")],
        str ("DR Doctor SMITH")⟩ ≤ (fields (str ("Doctor Smith"))).length := by
  refine ⟨by decide, by decide, by decide⟩

end Govhack
